import Mathlib

/-!
Verification development for the AllYouNeedIsWheel order ledger and
portfolio aggregation subsystem.

The definitions below are a shallow embedding of the Python source:
  * `OptionsDatabase` (src/db/database.py) — the order store, embedded as a
    pure state-passing model over a list of rows with an auto-increment id;
  * the Flask route handlers (src/api/routes/options.py) that validate
    input before touching the store;
  * `OptionsService.cancel_order` (src/api/services/options_service.py);
  * `PortfolioService` (src/api/services/portfolio_service.py) — holdings
    cache, position normalization and the weekly income calculator.

SQLite REAL columns are embedded as `Rat`, INTEGER as `Int`, TEXT as
`String`, BOOLEAN as `Bool`, nullable TEXT as `Option String`.  Python
dicts that the code probes with `dict.get` are embedded as structures with
`Option`-typed fields (`none` = key absent / `None`).
-/

namespace AllYouNeedIsWheel

/-- One row of the `orders` table (src/db/database.py, CREATE TABLE orders).
Column names and defaults follow the schema. -/
structure OrderRow where
  id : Nat
  timestamp : String
  ticker : String
  option_type : String
  action : String
  strike : Rat
  expiration : String
  premium : Rat
  quantity : Int
  status : String
  executed : Bool
  bid : Rat
  ask : Rat
  last : Rat
  delta : Rat
  gamma : Rat
  theta : Rat
  vega : Rat
  implied_volatility : Rat
  open_interest : Int
  volume : Int
  is_mock : Bool
  earnings_max_contracts : Int
  earnings_premium_per_contract : Rat
  earnings_total_premium : Rat
  earnings_return_on_cash : Rat
  earnings_return_on_capital : Rat
  ib_order_id : Option String
  ib_status : Option String
  filled : Int
  remaining : Int
  avg_fill_price : Rat
  isRollover : Bool
deriving DecidableEq

/-- The order store: the `orders` table plus the AUTOINCREMENT counter. -/
structure Store where
  rows : List OrderRow
  nextId : Nat
deriving DecidableEq

/-- The empty database. Ids handed out by SQLite AUTOINCREMENT start at 1. -/
def Store.empty : Store := { rows := [], nextId := 1 }

/-- Well-formedness: every stored row's id is below the auto-increment
counter (SQLite guarantees this for AUTOINCREMENT tables). -/
def Store.wf (s : Store) : Prop := ∀ r ∈ s.rows, r.id < s.nextId

instance (s : Store) : Decidable s.wf := by
  unfold Store.wf; infer_instance

/-- `SELECT * FROM orders WHERE id = ?` with `fetchone`: the first row with
the given id, as in `OptionsDatabase.get_order`. -/
def get_order (s : Store) (order_id : Nat) : Option OrderRow :=
  s.rows.find? (fun r => r.id == order_id)

/-- `UPDATE orders ... WHERE id = ?`: applies `f` to every row whose id
matches and returns the affected-row count together with the new store. -/
def Store.updateWhereId (s : Store) (order_id : Nat) (f : OrderRow → OrderRow) :
    Nat × Store :=
  ((s.rows.filter (fun r => r.id == order_id)).length,
   { s with rows := s.rows.map (fun r => if r.id == order_id then f r else r) })

/-- Input dict for `OptionsDatabase.save_order` (`order_data`).  Each field
is `Option`al: `none` means the key is absent, so `dict.get` falls back to
the default used in the source.  `order_type` and `limit_price` are keys
the rollover route puts into the dict; `save_order` never reads them. -/
structure OrderData where
  ticker : Option String := none
  option_type : Option String := none
  action : Option String := none
  strike : Option Rat := none
  expiration : Option String := none
  premium : Option Rat := none
  quantity : Option Int := none
  bid : Option Rat := none
  ask : Option Rat := none
  last : Option Rat := none
  delta : Option Rat := none
  gamma : Option Rat := none
  theta : Option Rat := none
  vega : Option Rat := none
  implied_volatility : Option Rat := none
  open_interest : Option Int := none
  volume : Option Int := none
  is_mock : Option Bool := none
  earnings_max_contracts : Option Int := none
  earnings_premium_per_contract : Option Rat := none
  earnings_total_premium : Option Rat := none
  earnings_return_on_cash : Option Rat := none
  earnings_return_on_capital : Option Rat := none
  isRollover : Option Bool := none
  order_type : Option String := none
  limit_price : Option Rat := none
deriving DecidableEq

/-- `OptionsDatabase.save_order`: builds the row from `order_data` with the
source's `dict.get` defaults, inserts it with status `'pending'` and
executed `False`, and returns `cursor.lastrowid`.  `now` stands for
`datetime.now().strftime(...)`. -/
def save_order (s : Store) (now : String) (d : OrderData) : Nat × Store :=
  let row : OrderRow :=
    { id := s.nextId
      timestamp := now
      ticker := d.ticker.getD ""
      option_type := d.option_type.getD ""
      action := d.action.getD "SELL"
      strike := d.strike.getD 0
      expiration := d.expiration.getD ""
      premium := d.premium.getD 0
      quantity := d.quantity.getD 1
      status := "pending"
      executed := false
      bid := d.bid.getD 0
      ask := d.ask.getD 0
      last := d.last.getD 0
      delta := d.delta.getD 0
      gamma := d.gamma.getD 0
      theta := d.theta.getD 0
      vega := d.vega.getD 0
      implied_volatility := d.implied_volatility.getD 0
      open_interest := d.open_interest.getD 0
      volume := d.volume.getD 0
      is_mock := d.is_mock.getD false
      earnings_max_contracts := d.earnings_max_contracts.getD 0
      earnings_premium_per_contract := d.earnings_premium_per_contract.getD 0
      earnings_total_premium := d.earnings_total_premium.getD 0
      earnings_return_on_cash := d.earnings_return_on_cash.getD 0
      earnings_return_on_capital := d.earnings_return_on_capital.getD 0
      ib_order_id := none
      ib_status := none
      filled := 0
      remaining := 0
      avg_fill_price := 0
      isRollover := d.isRollover.getD false }
  (s.nextId, { rows := s.rows ++ [row], nextId := s.nextId + 1 })

/-- The `execution_details` dict accepted by
`OptionsDatabase.update_order_status`.  The six `Option` fields are the
keys of the source's `field_mappings`; `extra` holds any other keys (for
example `"note"`), which the source never reads. -/
structure ExecutionDetails where
  ib_order_id : Option String := none
  ib_status : Option String := none
  filled : Option Int := none
  remaining : Option Int := none
  avg_fill_price : Option Rat := none
  is_mock : Option Bool := none
  extra : List (String × String) := []
deriving DecidableEq

/-- The field-level partial merge of `update_order_status`: only the
recognized keys present in `execution_details` touch their column. -/
def applyDetails (d : ExecutionDetails) (r : OrderRow) : OrderRow :=
  let r := match d.ib_order_id with
    | some v => { r with ib_order_id := some v }
    | none => r
  let r := match d.ib_status with
    | some v => { r with ib_status := some v }
    | none => r
  let r := match d.filled with
    | some v => { r with filled := v }
    | none => r
  let r := match d.remaining with
    | some v => { r with remaining := v }
    | none => r
  let r := match d.avg_fill_price with
    | some v => { r with avg_fill_price := v }
    | none => r
  match d.is_mock with
    | some v => { r with is_mock := v }
    | none => r

/-- The row transformation of `update_order_status`: status and executed
are always overwritten with the caller-supplied values, then any supplied
execution details are merged field by field. -/
def statusMerge (status : String) (executed : Bool)
    (execution_details : Option ExecutionDetails) (r : OrderRow) : OrderRow :=
  let r' := { r with status := status, executed := executed }
  match execution_details with
  | some d => applyDetails d r'
  | none => r'

/-- Python truthiness of the `execution_details` dict: a non-empty dict. -/
def detailsTruthy (d : ExecutionDetails) : Bool :=
  d.ib_order_id.isSome || d.ib_status.isSome || d.filled.isSome ||
  d.remaining.isSome || d.avg_fill_price.isSome || d.is_mock.isSome ||
  !d.extra.isEmpty

/-- `OptionsDatabase.update_order_status`.  The source appends `order_id`
to `params` only inside the `if execution_details and isinstance(...)`
block (src/db/database.py:316): when `execution_details` is omitted or an
empty dict (falsy), the 3-placeholder UPDATE receives only 2 bindings,
`cursor.execute` raises `sqlite3.ProgrammingError`, the surrounding
handler catches it, and the call returns `False` with every row
unchanged.  With a truthy details dict the id is appended, the query
executes, `status` and `executed` are always set, any recognized detail
keys are merged, and `affected_rows > 0` is returned.  The current status
of the row is never consulted. -/
def update_order_status (s : Store) (order_id : Nat) (status : String)
    (executed : Bool) (execution_details : Option ExecutionDetails) :
    Bool × Store :=
  match execution_details with
  | none => (false, s)
  | some d =>
    if detailsTruthy d then
      let (affected, s') :=
        s.updateWhereId order_id (statusMerge status executed (some d))
      (affected > 0, s')
    else (false, s)

/-- `OptionsDatabase.update_order_quantity`: looks the order up, refuses if
it is absent or its status is not `'pending'`, otherwise sets `quantity`
and refreshes `timestamp`, returning `affected_rows > 0`. -/
def update_order_quantity (s : Store) (now : String) (order_id : Nat)
    (quantity : Int) : Bool × Store :=
  match get_order s order_id with
  | none => (false, s)
  | some row =>
    if row.status ≠ "pending" then (false, s)
    else
      let (affected, s') := s.updateWhereId order_id
        (fun r => { r with quantity := quantity, timestamp := now })
      (affected > 0, s')

/-- `OptionsDatabase.delete_order`: removes the rows with the given id and
returns whether at least one row was removed. -/
def delete_order (s : Store) (order_id : Nat) : Bool × Store :=
  let remaining' := s.rows.filter (fun r => r.id != order_id)
  (remaining'.length < s.rows.length, { s with rows := remaining' })

/-! ### Route handlers (src/api/routes/options.py) -/

/-- Outcome of a route handler, abstracting the HTTP reply: `ok` carries the
success payload, `clientErr` stands for a 4xx reply and `serverErr` for a
5xx reply. -/
inductive RouteOutcome (α : Type)
  | ok (payload : α)
  | clientErr
  | serverErr
deriving DecidableEq

/-- `POST /api/options/order` (`save_order` route): rejects a missing body
and any body lacking one of the required fields `ticker`, `option_type`,
`strike`, `expiration` with a 400 before touching the store; otherwise
inserts via `OptionsDatabase.save_order` and replies 201 with the id. -/
def route_save_order (s : Store) (now : String) (body : Option OrderData) :
    RouteOutcome Nat × Store :=
  match body with
  | none => (.clientErr, s)
  | some d =>
    if d.ticker.isNone ∨ d.option_type.isNone ∨ d.strike.isNone ∨
        d.expiration.isNone then
      (.clientErr, s)
    else
      let (order_id, s') := save_order s now d
      (.ok order_id, s')

/-- Request body of `POST /api/options/rollover` (`rollover_data`); fields
are optional keys of the JSON dict. -/
structure RolloverData where
  ticker : Option String := none
  current_option_type : Option String := none
  current_strike : Option Rat := none
  current_expiration : Option String := none
  new_strike : Option Rat := none
  new_expiration : Option String := none
  quantity : Option Int := none
  current_order_type : Option String := none
  current_limit_price : Option Rat := none
  current_bid : Option Rat := none
  current_ask : Option Rat := none
  new_order_type : Option String := none
  new_limit_price : Option Rat := none
  new_bid : Option Rat := none
  new_ask : Option Rat := none
deriving DecidableEq

/-- The BUY-to-close order dict built by the rollover route: the current
leg's contract fields, `limit_price` passed through as-is (already
per-contract), `isRollover` set. -/
def rollover_buy_order (r : RolloverData) : OrderData :=
  { ticker := some (r.ticker.getD "")
    option_type := some (r.current_option_type.getD "")
    strike := some (r.current_strike.getD 0)
    expiration := some (r.current_expiration.getD "")
    action := some "BUY"
    quantity := some (r.quantity.getD 0)
    order_type := some (r.current_order_type.getD "MARKET")
    limit_price := r.current_limit_price
    bid := some (r.current_bid.getD 0)
    ask := some (r.current_ask.getD 0)
    isRollover := some true }

/-- The SELL-to-open order dict built by the rollover route: same ticker and
option type, the new strike/expiration, and `limit_price` converted from
per-unit to per-contract by multiplying by 100. -/
def rollover_sell_order (r : RolloverData) : OrderData :=
  { ticker := some (r.ticker.getD "")
    option_type := some (r.current_option_type.getD "")
    strike := some (r.new_strike.getD 0)
    expiration := some (r.new_expiration.getD "")
    action := some "SELL"
    quantity := some (r.quantity.getD 0)
    order_type := some (r.new_order_type.getD "LIMIT")
    limit_price := some (r.new_limit_price.getD 0 * 100)
    bid := some (r.new_bid.getD 0)
    ask := some (r.new_ask.getD 0)
    isRollover := some true }

/-- Whether the rollover body carries every required field (the route's
`required_fields` loop). -/
def rolloverFieldsPresent (r : RolloverData) : Prop :=
  r.ticker.isSome ∧ r.current_option_type.isSome ∧ r.current_strike.isSome ∧
  r.current_expiration.isSome ∧ r.new_strike.isSome ∧
  r.new_expiration.isSome ∧ r.quantity.isSome

instance (r : RolloverData) : Decidable (rolloverFieldsPresent r) := by
  unfold rolloverFieldsPresent; infer_instance

/-- `POST /api/options/rollover` (`rollover_option` route): validates the
required fields, then saves the BUY-to-close order and the SELL-to-open
order via `OptionsDatabase.save_order`, replying with both new ids. -/
def rollover_option (s : Store) (now : String) (body : Option RolloverData) :
    RouteOutcome (Nat × Nat) × Store :=
  match body with
  | none => (.clientErr, s)
  | some r =>
    if rolloverFieldsPresent r then
      let (buy_order_id, s') := save_order s now (rollover_buy_order r)
      let (sell_order_id, s'') := save_order s' now (rollover_sell_order r)
      (.ok (buy_order_id, sell_order_id), s'')
    else
      (.clientErr, s)

/-- `PUT /api/options/order/<id>/quantity` (`update_order_quantity` route):
rejects a body without `quantity` or with `quantity ≤ 0` (400), an unknown
id (404) and a non-`pending` order (400) before calling
`OptionsDatabase.update_order_quantity`; replies 200 on success and 500
when the store reports failure. -/
def route_update_order_quantity (s : Store) (now : String) (order_id : Nat)
    (body : Option Int) : RouteOutcome Int × Store :=
  match body with
  | none => (.clientErr, s)
  | some q =>
    if q ≤ 0 then (.clientErr, s)
    else
      match get_order s order_id with
      | none => (.clientErr, s)
      | some row =>
        if row.status ≠ "pending" then (.clientErr, s)
        else
          let (ok, s') := update_order_quantity s now order_id q
          if ok then (.ok q, s') else (.serverErr, s')

/-! ### OptionsService.cancel_order (src/api/services/options_service.py) -/

/-- The note the cancel path puts into `execution_details`. -/
def cancel_note : String := "Order canceled (trading not implemented)"

/-- The `execution_details` dict passed by `cancel_order`: only the
unrecognized key `"note"`. -/
def cancel_details : ExecutionDetails := { extra := [("note", cancel_note)] }

/-- `OptionsService.cancel_order`: 404 if the order does not exist;
otherwise marks it `"canceled"` with `executed = True` via
`update_order_status` (passing a note in the execution details) and replies
success regardless of the store's returned flag.  No external venue is
contacted by this code path. -/
def cancel_order (s : Store) (order_id : Nat) : RouteOutcome Unit × Store :=
  match get_order s order_id with
  | none => (.clientErr, s)
  | some _ =>
    let (_, s') := update_order_status s order_id "canceled" true
      (some cancel_details)
    (.ok (), s')

/-! ### Python string primitives

Embedded over `List Char` so they are kernel-executable; each mirrors the
documented behaviour of the Python operation it stands for. -/

/-- Python `a <= b` on strings: lexicographic comparison by code point. -/
def strLeList : List Char → List Char → Bool
  | [], _ => true
  | _ :: _, [] => false
  | a :: as, b :: bs =>
    if a.toNat < b.toNat then true
    else if b.toNat < a.toNat then false
    else strLeList as bs

/-- Python `a <= b` for strings. -/
def pyStrLe (a b : String) : Bool := strLeList a.data b.data

/-- Python `s.upper()`. -/
def pyUpper (s : String) : String := String.mk (s.data.map Char.toUpper)

/-- Python `s.replace('-', '')`: removes every `'-'`. -/
def removeDashes (s : String) : String :=
  String.mk (s.data.filter (fun c => c != '-'))

/-- Whether `needle` occurs at the head of the second list. -/
def matchHere : List Char → List Char → Bool
  | [], _ => true
  | _ :: _, [] => false
  | a :: as, b :: bs => (a == b) && matchHere as bs

/-- Python `needle in hay` substring membership. -/
def hasSub (needle : List Char) : List Char → Bool
  | [] => needle.isEmpty
  | b :: bs => matchHere needle (b :: bs) || hasSub needle bs

/-! ### PortfolioService (src/api/services/portfolio_service.py) -/

/-- The nested `symbol.symbol` object of a raw stock position;
`type_description` models `symbol_data.get('type', {}).get('description',
'Unknown')` collapsed into one optional key. -/
structure RawStockSymbolData where
  symbol : Option String := none
  type_description : Option String := none
deriving DecidableEq

/-- A raw stock position from the provider's `positions` array.
`symbol_data = none` models a missing/empty `pos['symbol']['symbol']`. -/
structure RawStockPos where
  symbol_data : Option RawStockSymbolData := none
  units : Rat := 0
  price : Rat := 0
  average_purchase_price : Rat := 0
  open_pnl : Rat := 0
deriving DecidableEq

/-- The nested `symbol.option_symbol` object of a raw option position.
`underlying_symbol` models `option_symbol_data['underlying_symbol']
['symbol']`: `none` means the nested path is missing (either level). -/
structure RawOptionSymbolData where
  underlying_symbol : Option String := none
  expiration_date : Option String := none
  strike_price : Option Rat := none
  option_type : Option String := none
deriving DecidableEq

/-- A raw option position from the provider's `option_positions` array.
`option_symbol = none` models a missing/empty `pos['symbol']
['option_symbol']`. -/
structure RawOptionPos where
  option_symbol : Option RawOptionSymbolData := none
  units : Rat := 0
  price : Rat := 0
  average_purchase_price : Rat := 0
  open_pnl : Rat := 0
deriving DecidableEq

/-- A holdings snapshot as returned by `get_user_holdings`: the two arrays
`_get_positions` reads (balances are irrelevant to the claims and omitted
from the content, which does not affect snapshot identity up to them). -/
structure Holdings where
  positions : List RawStockPos := []
  option_positions : List RawOptionPos := []
deriving DecidableEq

/-- A canonical (normalized) position dict as produced by `_get_positions`.
Stock entries leave the three option-only fields at the defaults the weekly
calculator's `dict.get` would observe. -/
structure Position where
  symbol : String
  position : Rat
  market_price : Rat
  market_value : Rat
  avg_cost : Rat
  unrealized_pnl : Rat
  security_type : String
  expiration : String := ""
  strike : Rat := 0
  option_type : String := ""
deriving DecidableEq

/-- `'Stock' in type_desc` — Python substring membership. -/
def containsStock (type_desc : String) : Bool :=
  hasSub "Stock".data type_desc.data

/-- Normalization of one raw stock entry inside `_get_positions`: `none`
when the entry is skipped (missing `symbol_data`). -/
def normalize_stock (pos : RawStockPos) : Option Position :=
  match pos.symbol_data with
  | none => none
  | some sd =>
    let type_desc := sd.type_description.getD "Unknown"
    let pos_type := if containsStock type_desc then "STK" else "UNKNOWN"
    some { symbol := sd.symbol.getD "N/A"
           position := pos.units
           market_price := pos.price
           market_value := pos.units * pos.price
           avg_cost := pos.average_purchase_price
           unrealized_pnl := pos.open_pnl
           security_type := pos_type }

/-- Normalization of one raw option entry inside `_get_positions`: `none`
when the entry is skipped (missing `option_symbol` data, or the nested
underlying-symbol path absent so the `'N/A'` default is observed). -/
def normalize_option (pos : RawOptionPos) : Option Position :=
  match pos.option_symbol with
  | none => none
  | some osd =>
    let underlying := osd.underlying_symbol.getD "N/A"
    if underlying == "N/A" then none
    else
      some { symbol := underlying
             position := pos.units
             market_price := pos.price
             market_value := pos.units * pos.price
             avg_cost := pos.average_purchase_price
             unrealized_pnl := pos.open_pnl
             security_type := "OPT"
             expiration := removeDashes (osd.expiration_date.getD "")
             strike := osd.strike_price.getD 0
             option_type := pyUpper (osd.option_type.getD "N/A") }

/-- The stock loop of `_get_positions`: each entry is normalized or skipped
individually. -/
def process_stock_positions : List RawStockPos → List Position
  | [] => []
  | p :: rest =>
    match normalize_stock p with
    | none => process_stock_positions rest
    | some q => q :: process_stock_positions rest

/-- The option loop of `_get_positions`: each entry is normalized or
skipped individually. -/
def process_option_positions : List RawOptionPos → List Position
  | [] => []
  | p :: rest =>
    match normalize_option p with
    | none => process_option_positions rest
    | some q => q :: process_option_positions rest

/-- `PortfolioService._get_positions` applied to one holdings snapshot:
stock positions first, then option positions, bad entries skipped. -/
def get_positions_from_holdings (h : Holdings) : List Position :=
  process_stock_positions h.positions ++
    process_option_positions h.option_positions

/-- `PortfolioService.get_positions(security_type)` filtering step. -/
def filter_positions (security_type : String) (ps : List Position) :
    List Position :=
  ps.filter (fun p => p.security_type == security_type)

/-- `(4 - today.weekday()) % 7`: days from `today` to the nearest Friday at
or after it (Python weekday: Monday = 0 … Sunday = 6, Friday = 4; Python
`%` is Euclidean on this range, as is `Int.emod`). -/
def days_until_friday (weekday : Nat) : Nat :=
  (((4 : Int) - (weekday : Int)) % 7).toNat

/-- One enriched entry of the weekly income report. -/
structure WeeklyPosition where
  symbol : String
  option_type : String
  strike : Rat
  expiration : String
  position : Rat
  premium_per_contract : Rat
  avg_cost : Rat
  income : Rat
  commission : Rat
  notional_value : Option Rat
deriving DecidableEq

/-- The per-position enrichment inside the weekly loop: contracts =
`abs(position)`, income = `avg_cost × contracts`, and for PUTs a notional
of `strike × 100 × contracts` (CALLs get `None`). -/
def weekly_enrich (p : Position) : WeeklyPosition :=
  let contracts := |p.position|
  let premium_per_contract := p.avg_cost
  let income := premium_per_contract * contracts
  { symbol := p.symbol
    option_type := p.option_type
    strike := p.strike
    expiration := p.expiration
    position := p.position
    premium_per_contract := premium_per_contract
    avg_cost := premium_per_contract
    income := income
    commission := 0
    notional_value :=
      if p.option_type == "PUT" then some (p.strike * 100 * contracts)
      else none }

/-- The selection loop of `get_weekly_option_income`: skip non-short
positions (`position ≥ 0`), keep those with a truthy (nonempty) expiration
that is `≤ this_friday_str`, accumulating the income total. -/
def weekly_loop (friday : String) : List Position → List WeeklyPosition × Rat
  | [] => ([], 0)
  | p :: rest =>
    if 0 ≤ p.position then weekly_loop friday rest
    else if p.expiration != "" && pyStrLe p.expiration friday then
      let w := weekly_enrich p
      let (ws, total) := weekly_loop friday rest
      (w :: ws, w.income + total)
    else weekly_loop friday rest

/-- The result dict of `get_weekly_option_income`. -/
structure WeeklyResult where
  positions : List WeeklyPosition
  total_income : Rat
  total_commission : Rat
  positions_count : Nat
  this_friday : String
  total_put_notional : Rat
deriving DecidableEq

/-- `PortfolioService.get_weekly_option_income` given the combined
normalized position list and the already-formatted Friday strings
(`this_friday_str` in `YYYYMMDD`, `friday_human` in `YYYY-MM-DD`): filters
to `security_type = 'OPT'` via `get_positions('OPT')`, runs the selection
loop, and sums the PUT notionals. -/
def get_weekly_option_income (all_positions : List Position)
    (this_friday_str friday_human : String) : WeeklyResult :=
  let positions := filter_positions "OPT" all_positions
  let (weekly_positions, total_income) := weekly_loop this_friday_str positions
  { positions := weekly_positions
    total_income := total_income
    total_commission := 0
    positions_count := weekly_positions.length
    this_friday := friday_human
    total_put_notional :=
      ((weekly_positions.filter (fun w => w.option_type == "PUT")).map
        (fun w => w.notional_value.getD 0)).sum }

/-! ### HoldingsCache (`PortfolioService._get_holdings_cache`) -/

/-- The mutable fields of `PortfolioService` the cache uses:
`primary_account_id`, `holdings_cache` and `cache_time` (all `None` at
construction). -/
structure CacheState where
  primary_account_id : Option String := none
  holdings_cache : Option Holdings := none
  cache_time : Option Nat := none
deriving DecidableEq

/-- `CACHE_DURATION = 60` seconds. -/
def CACHE_DURATION : Nat := 60

/-- `PortfolioService._get_primary_account_id`: cached indefinitely once
resolved; otherwise the first account of `get_all_accounts()`. -/
def get_primary_account_id (accounts : List String) (st : CacheState) :
    Option String × CacheState :=
  match st.primary_account_id with
  | some a => (some a, st)
  | none =>
    match accounts with
    | [] => (none, st)
    | a :: _ => (some a, { st with primary_account_id := some a })

/-- Result of one `_get_holdings_cache` call: the returned holdings (or
`none` on failure), the new service state, and how many upstream
`get_user_holdings` calls were made (0 or 1). -/
structure CacheCallResult where
  result : Option Holdings
  state : CacheState
  upstream_calls : Nat
deriving DecidableEq

/-- `PortfolioService._get_holdings_cache` at instant `now`: serve the
cached snapshot when one exists and `now - cache_time < CACHE_DURATION`;
otherwise resolve the account id and fetch from the provider (`provider a
t` = what `get_user_holdings(a)` returns at time `t`, `none` = falsy
failure).  A successful fetch replaces the snapshot and stamps the time; a
failed fetch leaves the stale cache in place and returns `none`. -/
def get_holdings_cache (provider : String → Nat → Option Holdings)
    (accounts : List String) (st : CacheState) (now : Nat) : CacheCallResult :=
  let cached : Option Holdings :=
    match st.holdings_cache, st.cache_time with
    | some h, some t => if now - t < CACHE_DURATION then some h else none
    | _, _ => none
  match cached with
  | some h => { result := some h, state := st, upstream_calls := 0 }
  | none =>
    match get_primary_account_id accounts st with
    | (none, st') => { result := none, state := st', upstream_calls := 0 }
    | (some a, st') =>
      match provider a now with
      | some h =>
        { result := some h
          state := { st' with holdings_cache := some h, cache_time := some now }
          upstream_calls := 1 }
      | none => { result := none, state := st', upstream_calls := 1 }

/-! ### Dict view of a stored row -/

/-- A SQLite cell value, for the dict view `dict(row)` that `get_order`
hands to callers. -/
inductive DbValue
  | str (v : String)
  | real (v : Rat)
  | int (v : Int)
  | bool (v : Bool)
  | null
deriving DecidableEq

/-- `dict(row)` for a row of the `orders` table: exactly the columns of the
schema, in order.  Keys not in the schema (such as `limit_price`) do not
appear. -/
def OrderRow.toDict (o : OrderRow) : List (String × DbValue) :=
  [ ("id", .int (o.id : Int)), ("timestamp", .str o.timestamp),
    ("ticker", .str o.ticker), ("option_type", .str o.option_type),
    ("action", .str o.action), ("strike", .real o.strike),
    ("expiration", .str o.expiration), ("premium", .real o.premium),
    ("quantity", .int o.quantity), ("status", .str o.status),
    ("executed", .bool o.executed), ("bid", .real o.bid),
    ("ask", .real o.ask), ("last", .real o.last), ("delta", .real o.delta),
    ("gamma", .real o.gamma), ("theta", .real o.theta),
    ("vega", .real o.vega),
    ("implied_volatility", .real o.implied_volatility),
    ("open_interest", .int o.open_interest), ("volume", .int o.volume),
    ("is_mock", .bool o.is_mock),
    ("earnings_max_contracts", .int o.earnings_max_contracts),
    ("earnings_premium_per_contract", .real o.earnings_premium_per_contract),
    ("earnings_total_premium", .real o.earnings_total_premium),
    ("earnings_return_on_cash", .real o.earnings_return_on_cash),
    ("earnings_return_on_capital", .real o.earnings_return_on_capital),
    ("ib_order_id",
      match o.ib_order_id with | some v => .str v | none => .null),
    ("ib_status", match o.ib_status with | some v => .str v | none => .null),
    ("filled", .int o.filled), ("remaining", .int o.remaining),
    ("avg_fill_price", .real o.avg_fill_price),
    ("isRollover", .bool o.isRollover) ]

/-- Whether a raw option entry's nested underlying-symbol path is missing,
so that `_get_positions` observes the `'N/A'` default and skips it. -/
def underlying_missing (e : RawOptionPos) : Bool :=
  match e.option_symbol with
  | none => true
  | some osd => osd.underlying_symbol.getD "N/A" == "N/A"

/-! ### Concrete data used by witnesses -/

/-- A stored NVDA short-put order row as `save_order` would create it from
the scenario order of the spec. -/
def demoRow : OrderRow :=
  { id := 1, timestamp := "2024-05-06 10:00:00", ticker := "NVDA",
    option_type := "PUT", action := "SELL", strike := 850,
    expiration := "20240510", premium := 0, quantity := 10,
    status := "pending", executed := false, bid := 0, ask := 0, last := 0,
    delta := 0, gamma := 0, theta := 0, vega := 0, implied_volatility := 0,
    open_interest := 0, volume := 0, is_mock := false,
    earnings_max_contracts := 0, earnings_premium_per_contract := 0,
    earnings_total_premium := 0, earnings_return_on_cash := 0,
    earnings_return_on_capital := 0, ib_order_id := none, ib_status := none,
    filled := 0, remaining := 0, avg_fill_price := 0, isRollover := false }

/-- A store holding just `demoRow`. -/
def demoStore : Store := { rows := [demoRow], nextId := 2 }

/-- A truthy execution-details dict (fill information from the venue). -/
def demoDetails : ExecutionDetails :=
  { ib_status := some "Filled", filled := some 10 }

/-- `demoStore` after its order reached the terminal status `completed`
(via a truthy-details update, the path on which the UPDATE executes). -/
def demoCompletedStore : Store :=
  (update_order_status demoStore 1 "completed" true (some demoDetails)).2

/-- The spec's scenario order as a `save_order` input dict. -/
def demoOrderData : OrderData :=
  { ticker := some "NVDA", option_type := some "PUT", strike := some 850,
    expiration := some "20240510", action := some "SELL",
    quantity := some 10 }

/-- The scenario order with every `save_order` input key present. -/
def demoOrderDataFull : OrderData :=
  { ticker := some "NVDA", option_type := some "PUT", action := some "SELL",
    strike := some 850, expiration := some "20240510", premium := some 0,
    quantity := some 10, bid := some 0, ask := some 0, last := some 0,
    delta := some 0, gamma := some 0, theta := some 0, vega := some 0,
    implied_volatility := some 0, open_interest := some 0, volume := some 0,
    is_mock := some false, earnings_max_contracts := some 0,
    earnings_premium_per_contract := some 0, earnings_total_premium := some 0,
    earnings_return_on_cash := some 0, earnings_return_on_capital := some 0,
    isRollover := some false }

/-- A concrete rollover request: close the NVDA 850 put, open the 830 put a
week later, per-unit limit price 15.5. -/
def demoRollover : RolloverData :=
  { ticker := some "NVDA", current_option_type := some "PUT",
    current_strike := some 850, current_expiration := some "20240510",
    new_strike := some 830, new_expiration := some "20240517",
    quantity := some 10, new_order_type := some "LIMIT",
    new_limit_price := some (155 / 10) }

/-- A concrete holdings snapshot for the cache witness. -/
def demoSnapshot : Holdings := { positions := [], option_positions := [] }

/-- An option entry whose nested underlying-symbol path is missing. -/
def demoBadOption : RawOptionPos :=
  { option_symbol := some
      { underlying_symbol := none, expiration_date := some "2024-05-10",
        strike_price := some 850, option_type := some "put" },
    units := -10 }

/-- A well-formed sibling option entry. -/
def demoGoodOption : RawOptionPos :=
  { option_symbol := some
      { underlying_symbol := some "NVDA",
        expiration_date := some "2024-05-10", strike_price := some 850,
        option_type := some "put" },
    units := -10 }

/-- A snapshot holding the malformed entry next to the well-formed one. -/
def demoHoldings : Holdings :=
  { positions := [], option_positions := [demoBadOption, demoGoodOption] }

/-- The short NVDA put of the spec's weekly-income example, normalized. -/
def demoShortPut : Position :=
  { symbol := "NVDA", position := -10, market_price := 0, market_value := 0,
    avg_cost := 155 / 10, unrealized_pnl := 0, security_type := "OPT",
    expiration := "20240510", strike := 850, option_type := "PUT" }

/-! ## Helper lemmas -/

theorem applyDetails_fixed (d : ExecutionDetails) (r : OrderRow) :
    (applyDetails d r).id = r.id ∧ (applyDetails d r).status = r.status ∧
      (applyDetails d r).executed = r.executed := by
  unfold applyDetails
  rcases d with ⟨o1, o2, o3, o4, o5, o6, ex⟩
  cases o1 <;> cases o2 <;> cases o3 <;> cases o4 <;> cases o5 <;> cases o6 <;>
    exact ⟨rfl, rfl, rfl⟩

theorem statusMerge_id (st : String) (ex : Bool)
    (dtl : Option ExecutionDetails) (r : OrderRow) :
    (statusMerge st ex dtl r).id = r.id := by
  unfold statusMerge
  cases dtl with
  | none => rfl
  | some d => exact (applyDetails_fixed d _).1

theorem statusMerge_status (st : String) (ex : Bool)
    (dtl : Option ExecutionDetails) (r : OrderRow) :
    (statusMerge st ex dtl r).status = st := by
  unfold statusMerge
  cases dtl with
  | none => rfl
  | some d => exact (applyDetails_fixed d _).2.1

theorem statusMerge_executed (st : String) (ex : Bool)
    (dtl : Option ExecutionDetails) (r : OrderRow) :
    (statusMerge st ex dtl r).executed = ex := by
  unfold statusMerge
  cases dtl with
  | none => rfl
  | some d => exact (applyDetails_fixed d _).2.2

theorem find?_cons_pos (p : OrderRow → Bool) (a : OrderRow)
    (l : List OrderRow) (h : p a = true) : (a :: l).find? p = some a :=
  List.find?_cons_of_pos l h

theorem find?_cons_neg (p : OrderRow → Bool) (a : OrderRow)
    (l : List OrderRow) (h : p a = false) : (a :: l).find? p = l.find? p :=
  List.find?_cons_of_neg l (by rw [h]; exact Bool.false_ne_true)

theorem find?_update (l : List OrderRow) (n : Nat) (f : OrderRow → OrderRow)
    (hf : ∀ r, (f r).id = r.id) :
    (l.map (fun r => if r.id == n then f r else r)).find?
        (fun r => r.id == n) =
      (l.find? (fun r => r.id == n)).map f := by
  induction l with
  | nil => rfl
  | cons a l ih =>
    simp only [List.map_cons]
    by_cases h : (a.id == n) = true
    · rw [if_pos h,
        find?_cons_pos (fun r => r.id == n) (f a) _
          (by show ((f a).id == n) = true; rw [hf a]; exact h),
        find?_cons_pos (fun r => r.id == n) a _ h]
      rfl
    · have hfalse : (a.id == n) = false := Bool.not_eq_true _ ▸ h
      rw [if_neg h, find?_cons_neg (fun r => r.id == n) a _ hfalse,
        find?_cons_neg (fun r => r.id == n) a _ hfalse, ih]

theorem find?_update_other (l : List OrderRow) (n j : Nat)
    (f : OrderRow → OrderRow) (hf : ∀ r, (f r).id = r.id) (hne : j ≠ n) :
    (l.map (fun r => if r.id == n then f r else r)).find?
        (fun r => r.id == j) =
      l.find? (fun r => r.id == j) := by
  induction l with
  | nil => rfl
  | cons a l ih =>
    simp only [List.map_cons]
    by_cases hn : (a.id == n) = true
    · have han : a.id = n := beq_iff_eq.1 hn
      have haj : ((f a).id == j) = false := by
        rw [hf a]
        exact beq_eq_false_iff_ne.2 (fun hh => hne (hh ▸ han ▸ rfl))
      have haj' : (a.id == j) = false :=
        beq_eq_false_iff_ne.2 (fun hh => hne (hh ▸ han ▸ rfl))
      rw [if_pos hn, find?_cons_neg (fun r => r.id == j) (f a) _ haj,
        find?_cons_neg (fun r => r.id == j) a _ haj', ih]
    · rw [if_neg hn]
      by_cases hj : (a.id == j) = true
      · rw [find?_cons_pos (fun r => r.id == j) a _ hj,
          find?_cons_pos (fun r => r.id == j) a _ hj]
      · have hjf : (a.id == j) = false := Bool.not_eq_true _ ▸ hj
        rw [find?_cons_neg (fun r => r.id == j) a _ hjf,
          find?_cons_neg (fun r => r.id == j) a _ hjf, ih]

theorem find?_isSome_filter_pos (l : List OrderRow) (p : OrderRow → Bool)
    (h : (l.find? p).isSome) : 0 < (l.filter p).length := by
  obtain ⟨x, hx, hpx⟩ := List.find?_isSome.1 h
  have hmem : x ∈ l.filter p := List.mem_filter.2 ⟨hx, hpx⟩
  exact List.length_pos.2 (List.ne_nil_of_mem hmem)

theorem find?_append_mid (l : List OrderRow) (row : OrderRow)
    (tail : List OrderRow) (n : Nat)
    (hl : ∀ r ∈ l, r.id ≠ n) (hid : row.id = n) :
    (l ++ row :: tail).find? (fun r => r.id == n) = some row := by
  induction l with
  | nil =>
    simp only [List.nil_append]
    exact find?_cons_pos (fun r => r.id == n) row _ (beq_iff_eq.2 hid)
  | cons a l ih =>
    rw [List.cons_append, find?_cons_neg (fun r => r.id == n) a _
      (beq_eq_false_iff_ne.2 (hl a (List.mem_cons_self a l)))]
    exact ih (fun r hr => hl r (List.mem_cons_of_mem a hr))

theorem get_order_updateWhereId (s : Store) (n : Nat) (f : OrderRow → OrderRow)
    (hf : ∀ r, (f r).id = r.id) :
    get_order (s.updateWhereId n f).2 n = (get_order s n).map f := by
  unfold get_order Store.updateWhereId
  exact find?_update s.rows n f hf

theorem updateWhereId_fst_pos (s : Store) (n : Nat) (f : OrderRow → OrderRow)
    (row : OrderRow) (hrow : get_order s n = some row) :
    0 < (s.updateWhereId n f).1 := by
  apply find?_isSome_filter_pos
  unfold get_order at hrow
  rw [hrow]
  rfl

theorem update_order_status_falsy (s : Store) (order_id : Nat)
    (st : String) (ex : Bool) (dtl : Option ExecutionDetails)
    (hdtl : dtl = none ∨ ∃ d, dtl = some d ∧ detailsTruthy d = false) :
    update_order_status s order_id st ex dtl = (false, s) := by
  rcases hdtl with h | ⟨d, h, hd⟩ <;> subst h
  · rfl
  · unfold update_order_status
    dsimp only
    rw [if_neg (by rw [hd]; exact Bool.false_ne_true)]

theorem update_order_status_truthy_fst (s : Store) (order_id : Nat)
    (st : String) (ex : Bool) (d : ExecutionDetails) (row : OrderRow)
    (hd : detailsTruthy d = true)
    (hrow : get_order s order_id = some row) :
    (update_order_status s order_id st ex (some d)).1 = true := by
  unfold update_order_status
  dsimp only
  rw [if_pos hd]
  show decide (0 < (s.updateWhereId order_id
    (statusMerge st ex (some d))).1) = true
  simp only [decide_eq_true_eq]
  exact updateWhereId_fst_pos s order_id _ row hrow

theorem get_order_update_order_status (s : Store) (order_id : Nat)
    (st : String) (ex : Bool) (d : ExecutionDetails)
    (hd : detailsTruthy d = true) :
    get_order (update_order_status s order_id st ex (some d)).2 order_id =
      (get_order s order_id).map (statusMerge st ex (some d)) := by
  unfold update_order_status
  dsimp only
  rw [if_pos hd]
  exact get_order_updateWhereId s order_id _
    (fun r => statusMerge_id st ex (some d) r)

theorem get_order_update_order_status_other (s : Store) (order_id j : Nat)
    (st : String) (ex : Bool) (d : ExecutionDetails)
    (hd : detailsTruthy d = true) (hne : j ≠ order_id) :
    get_order (update_order_status s order_id st ex (some d)).2 j =
      get_order s j := by
  unfold update_order_status
  dsimp only
  rw [if_pos hd]
  show (s.updateWhereId order_id
    (statusMerge st ex (some d))).2.rows.find? (fun r => r.id == j) =
    get_order s j
  exact find?_update_other s.rows order_id j _
    (fun r => statusMerge_id st ex (some d) r) hne

/-! ## Claims -/

/-- C1 is false of the code (code bug): with execution details omitted or
empty, the id is never appended to `params` (it happens only inside the
truthy-details branch), the binding mismatch raises
`sqlite3.ProgrammingError`, and `update_order_status` returns `False`
leaving the store unchanged — here for an order that exists, so the claim
would require `True` and an updated row. -/
theorem update_status_falsy_details_fails :
    get_order demoStore 1 = some demoRow ∧
    update_order_status demoStore 1 "processing" true none =
      (false, demoStore) ∧
    update_order_status demoStore 1 "processing" true (some {}) =
      (false, demoStore) :=
  ⟨rfl, rfl, rfl⟩

/-- C2 fails on the code: the completed (terminal) order of
`demoCompletedStore` is transitioned back to `pending` by an
`update_order_status` call carrying a truthy execution-details dict (a
`"note"`-only dict, as the cancel path passes). -/
theorem terminal_status_changed_cex :
    (get_order demoCompletedStore 1).map (fun r => r.status) =
        some "completed" ∧
    (get_order (update_order_status demoCompletedStore 1 "pending" false
        (some { extra := [("note", "reopen")] })).2 1).map
      (fun r => r.status) = some "pending" :=
  ⟨rfl, rfl⟩

/-- C2 (amended): `update_order_status` never consults the current status:
for every stored order — terminal (`completed`/`canceled`) included — a
call carrying a truthy (non-empty) execution-details dict applies the
caller-supplied status unconditionally, so the component provides no
terminal-state protection.  (A call with omitted or empty details fails
on the parameter-binding slip and changes nothing.) -/
theorem update_status_ignores_current_status (s : Store) (order_id : Nat)
    (st : String) (ex : Bool) (d : ExecutionDetails) (row : OrderRow)
    (hrow : get_order s order_id = some row)
    (hd : detailsTruthy d = true) :
    (get_order (update_order_status s order_id st ex (some d)).2
        order_id).map (fun r => r.status) = some st := by
  rw [get_order_update_order_status s order_id st ex d hd, hrow]
  simp [statusMerge_status]

/-- Witness for the amended C2: the terminal demo order really moves. -/
theorem update_status_ignores_current_status_witness :
    (get_order (update_order_status demoCompletedStore 1 "pending" false
        (some demoDetails)).2 1).map (fun r => r.status) = some "pending" :=
  update_status_ignores_current_status demoCompletedStore 1 "pending" false
    demoDetails (statusMerge "completed" true (some demoDetails) demoRow)
    (by rfl) rfl

/-- C10: `cancel_order` on a stored id always succeeds, setting the status
to `canceled` and the legacy executed flag to true whatever the prior
status; every other field of the row and every other row stay unchanged
(the `"note"` passed in the execution details is not a recognized merge
key); an absent id is reported as not found and nothing changes.  No
external venue is contacted by this code path. -/
theorem cancel_order_spec (s : Store) (order_id : Nat) :
    (∀ row, get_order s order_id = some row →
      (cancel_order s order_id).1 = RouteOutcome.ok () ∧
      get_order (cancel_order s order_id).2 order_id =
        some { row with status := "canceled", executed := true } ∧
      (∀ j, j ≠ order_id →
        get_order (cancel_order s order_id).2 j = get_order s j) ∧
      cancel_details.extra.lookup "note" = some cancel_note) ∧
    (get_order s order_id = none →
      cancel_order s order_id = (RouteOutcome.clientErr, s)) := by
  constructor
  · intro row hrow
    unfold cancel_order
    rw [hrow]
    refine ⟨rfl, ?_, ?_, rfl⟩
    · rw [get_order_update_order_status s order_id "canceled" true
        cancel_details (by rfl), hrow]
      rfl
    · intro j hj
      exact get_order_update_order_status_other s order_id j "canceled" true
        cancel_details (by rfl) hj
  · intro hnone
    unfold cancel_order
    rw [hnone]

/-- Witness for C10 — the demo store: a pending order is canceled, and an
absent id changes nothing. -/
theorem cancel_order_spec_witness :
    (cancel_order demoStore 1).1 = RouteOutcome.ok () ∧
    get_order (cancel_order demoStore 1).2 1 =
      some { demoRow with status := "canceled", executed := true } ∧
    cancel_order demoStore 99 = (RouteOutcome.clientErr, demoStore) := by
  have h1 := (cancel_order_spec demoStore 1).1 demoRow (by rfl)
  have h2 := (cancel_order_spec demoStore 99).2 (by rfl)
  exact ⟨h1.1, h1.2.1, h2⟩

theorem update_order_quantity_success (s : Store) (now : String)
    (order_id : Nat) (q : Int) (row : OrderRow)
    (hrow : get_order s order_id = some row)
    (hst : row.status = "pending") :
    (update_order_quantity s now order_id q).1 = true ∧
    get_order (update_order_quantity s now order_id q).2 order_id =
      some { row with quantity := q, timestamp := now } := by
  unfold update_order_quantity
  rw [hrow]
  dsimp only
  rw [if_neg (fun hne => hne hst)]
  constructor
  · simp only [decide_eq_true_eq]
    exact updateWhereId_fst_pos s order_id _ row hrow
  · have h := get_order_updateWhereId s order_id
      (fun r => { r with quantity := q, timestamp := now }) (fun r => rfl)
    rw [h, hrow]
    rfl

/-- C4: the quantity-update operation (route plus store) succeeds iff the
order exists with status `pending` and the requested quantity is positive;
in every other case it reports an error and the store — every field of
every row, timestamp included — is untouched; on success the row's quantity
is replaced and its timestamp refreshed. -/
theorem update_quantity_route_spec (s : Store) (now : String)
    (order_id : Nat) (q : Int) :
    ((route_update_order_quantity s now order_id (some q)).1 =
        RouteOutcome.ok q ↔
      ∃ row, get_order s order_id = some row ∧ row.status = "pending" ∧
        0 < q) ∧
    ((route_update_order_quantity s now order_id (some q)).1 ≠
        RouteOutcome.ok q →
      (route_update_order_quantity s now order_id (some q)).2 = s) ∧
    (∀ row, get_order s order_id = some row → row.status = "pending" →
      0 < q →
      get_order (route_update_order_quantity s now order_id (some q)).2
          order_id =
        some { row with quantity := q, timestamp := now }) := by
  by_cases hq : q ≤ 0
  · have hroute : route_update_order_quantity s now order_id (some q) =
        (RouteOutcome.clientErr, s) := by
      unfold route_update_order_quantity
      dsimp only
      rw [if_pos hq]
    refine ⟨?_, ?_, ?_⟩
    · rw [hroute]
      constructor
      · intro h
        cases h
      · rintro ⟨row, -, -, hpos⟩
        exact absurd hpos (not_lt.2 hq)
    · intro _
      rw [hroute]
    · intro row _ _ hpos
      exact absurd hpos (not_lt.2 hq)
  · cases hget : get_order s order_id with
    | none =>
      have hroute : route_update_order_quantity s now order_id (some q) =
          (RouteOutcome.clientErr, s) := by
        unfold route_update_order_quantity
        dsimp only
        rw [if_neg hq, hget]
      refine ⟨?_, ?_, ?_⟩
      · rw [hroute]
        constructor
        · intro h
          cases h
        · rintro ⟨row, hrow, -, -⟩
          cases hrow
      · intro _
        rw [hroute]
      · intro row hrow
        cases hrow
    | some row =>
      by_cases hst : row.status = "pending"
      · have hsucc := update_order_quantity_success s now order_id q row
          hget hst
        have hroute : route_update_order_quantity s now order_id (some q) =
            (RouteOutcome.ok q,
              (update_order_quantity s now order_id q).2) := by
          unfold route_update_order_quantity
          dsimp only
          rw [if_neg hq, hget]
          dsimp only
          rw [if_neg (fun hne => hne hst)]
          rw [(Prod.mk.eta (p := update_order_quantity s now order_id q)).symm,
            if_pos hsucc.1]
        refine ⟨?_, ?_, ?_⟩
        · rw [hroute]
          exact ⟨fun _ => ⟨row, rfl, hst, lt_of_not_ge hq⟩, fun _ => rfl⟩
        · intro hne
          rw [hroute] at hne
          exact absurd rfl hne
        · intro row' hrow' hst' hpos
          injection hrow' with hr
          rw [hroute, ← hr]
          exact hsucc.2
      · have hroute : route_update_order_quantity s now order_id (some q) =
            (RouteOutcome.clientErr, s) := by
          unfold route_update_order_quantity
          dsimp only
          rw [if_neg hq, hget]
          dsimp only
          rw [if_pos hst]
        refine ⟨?_, ?_, ?_⟩
        · rw [hroute]
          constructor
          · intro h
            cases h
          · rintro ⟨row', hrow', hst', -⟩
            injection hrow' with hr
            exact absurd (by rw [hr]; exact hst') hst
        · intro _
          rw [hroute]
        · intro row' hrow' hst'
          injection hrow' with hr
          exact absurd (by rw [hr]; exact hst') hst

/-- Witness for C4: success with a positive quantity on the pending demo
order, rejection and no change with a non-positive one. -/
theorem update_quantity_route_spec_witness :
    (route_update_order_quantity demoStore "2024-05-07 09:00:00" 1
        (some 5)).1 = RouteOutcome.ok 5 ∧
    get_order (route_update_order_quantity demoStore "2024-05-07 09:00:00" 1
        (some 5)).2 1 =
      some { demoRow with
               quantity := 5, timestamp := "2024-05-07 09:00:00" } ∧
    (route_update_order_quantity demoStore "2024-05-07 09:00:00" 1
        (some 0)).2 = demoStore := by
  have h := update_quantity_route_spec demoStore "2024-05-07 09:00:00" 1 5
  have h0 := update_quantity_route_spec demoStore "2024-05-07 09:00:00" 1 0
  refine ⟨h.1.2 ⟨demoRow, by rfl, rfl, by decide⟩, ?_, ?_⟩
  · exact h.2.2 demoRow (by rfl) rfl (by decide)
  · refine h0.2.1 (fun hok => ?_)
    have := h0.1.1 hok
    obtain ⟨-, -, -, hpos⟩ := this
    exact absurd hpos (by decide)

theorem find?_append2_fst (l : List OrderRow) (b sl : OrderRow) (n : Nat)
    (hl : ∀ r ∈ l, r.id ≠ n) (hid : b.id = n) :
    ((l ++ [b]) ++ [sl]).find? (fun r => r.id == n) = some b := by
  rw [List.append_assoc]
  exact find?_append_mid l b [sl] n hl hid

theorem find?_append2_snd (l : List OrderRow) (b sl : OrderRow) (n : Nat)
    (hl : ∀ r ∈ l, r.id ≠ n) (hb : b.id ≠ n) (hid : sl.id = n) :
    ((l ++ [b]) ++ [sl]).find? (fun r => r.id == n) = some sl :=
  find?_append_mid (l ++ [b]) sl [] n
    (fun r hr => by
      rcases List.mem_append.1 hr with h | h
      · exact hl r h
      · rw [List.mem_singleton.1 h]; exact hb) hid

/-- C6: for every well-formed store, a `get_order` immediately after
`save_order` of a fully-specified input returns a row with status
`pending`, executed `false`, a fresh timestamp, zeroed execution columns,
and every field equal to the corresponding input field. -/
theorem create_then_get (s : Store) (hwf : s.wf) (now : String)
    (tkr opty act expn : String)
    (stk prm bidv askv lastv dlt gam tht vga ivol eprem etot ecash ecap : Rat)
    (qty oint vol emaxc : Int) (imck rflag : Bool) :
    get_order (save_order s now
        { ticker := some tkr, option_type := some opty, action := some act,
          strike := some stk, expiration := some expn, premium := some prm,
          quantity := some qty, bid := some bidv, ask := some askv,
          last := some lastv, delta := some dlt, gamma := some gam,
          theta := some tht, vega := some vga,
          implied_volatility := some ivol, open_interest := some oint,
          volume := some vol, is_mock := some imck,
          earnings_max_contracts := some emaxc,
          earnings_premium_per_contract := some eprem,
          earnings_total_premium := some etot,
          earnings_return_on_cash := some ecash,
          earnings_return_on_capital := some ecap,
          isRollover := some rflag }).2
      (save_order s now
        { ticker := some tkr, option_type := some opty, action := some act,
          strike := some stk, expiration := some expn, premium := some prm,
          quantity := some qty, bid := some bidv, ask := some askv,
          last := some lastv, delta := some dlt, gamma := some gam,
          theta := some tht, vega := some vga,
          implied_volatility := some ivol, open_interest := some oint,
          volume := some vol, is_mock := some imck,
          earnings_max_contracts := some emaxc,
          earnings_premium_per_contract := some eprem,
          earnings_total_premium := some etot,
          earnings_return_on_cash := some ecash,
          earnings_return_on_capital := some ecap,
          isRollover := some rflag }).1 =
      some
        { id := s.nextId, timestamp := now, ticker := tkr,
          option_type := opty, action := act, strike := stk,
          expiration := expn, premium := prm, quantity := qty,
          status := "pending", executed := false, bid := bidv, ask := askv,
          last := lastv, delta := dlt, gamma := gam, theta := tht,
          vega := vga, implied_volatility := ivol, open_interest := oint,
          volume := vol, is_mock := imck, earnings_max_contracts := emaxc,
          earnings_premium_per_contract := eprem,
          earnings_total_premium := etot, earnings_return_on_cash := ecash,
          earnings_return_on_capital := ecap, ib_order_id := none,
          ib_status := none, filled := 0, remaining := 0,
          avg_fill_price := 0, isRollover := rflag } := by
  unfold save_order get_order
  exact find?_append_mid s.rows _ [] s.nextId
    (fun r hr => Nat.ne_of_lt (hwf r hr)) rfl

/-- Witness for C6: the spec's scenario order on the empty store. -/
theorem create_then_get_witness :
    get_order
        (save_order Store.empty "2024-05-06 10:00:00" demoOrderDataFull).2
        (save_order Store.empty "2024-05-06 10:00:00" demoOrderDataFull).1 =
      some demoRow :=
  create_then_get Store.empty (by decide) "2024-05-06 10:00:00"
    "NVDA" "PUT" "SELL" "20240510" 850 0 0 0 0 0 0 0 0 0 0 0 0 0
    10 0 0 0 false false

/-- C7: the create route rejects any body missing one of `ticker`,
`option_type`, `strike`, `expiration` before touching the store (no row is
inserted, no id is returned); with all four present it inserts exactly one
row and replies with the new numeric id. -/
theorem route_save_order_validation (s : Store) (now : String)
    (d : OrderData) :
    ((d.ticker = none ∨ d.option_type = none ∨ d.strike = none ∨
        d.expiration = none) →
      route_save_order s now (some d) = (RouteOutcome.clientErr, s)) ∧
    (d.ticker ≠ none → d.option_type ≠ none → d.strike ≠ none →
      d.expiration ≠ none →
      (route_save_order s now (some d)).1 = RouteOutcome.ok s.nextId ∧
      (route_save_order s now (some d)).2.rows.length =
        s.rows.length + 1) := by
  constructor
  · intro h
    unfold route_save_order
    dsimp only
    rw [if_pos]
    rcases h with h | h | h | h
    · exact Or.inl (Option.isNone_iff_eq_none.2 h)
    · exact Or.inr (Or.inl (Option.isNone_iff_eq_none.2 h))
    · exact Or.inr (Or.inr (Or.inl (Option.isNone_iff_eq_none.2 h)))
    · exact Or.inr (Or.inr (Or.inr (Option.isNone_iff_eq_none.2 h)))
  · intro h1 h2 h3 h4
    unfold route_save_order
    dsimp only
    rw [if_neg (fun hcon => by
      rcases hcon with hc | hc | hc | hc
      · exact h1 (Option.isNone_iff_eq_none.1 hc)
      · exact h2 (Option.isNone_iff_eq_none.1 hc)
      · exact h3 (Option.isNone_iff_eq_none.1 hc)
      · exact h4 (Option.isNone_iff_eq_none.1 hc))]
    refine ⟨rfl, ?_⟩
    show (s.rows ++ [_]).length = s.rows.length + 1
    rw [List.length_append]
    rfl

/-- Witness for C7: a body missing `ticker` is rejected with no insertion;
the full scenario body yields id 1 and one stored row. -/
theorem route_save_order_validation_witness :
    route_save_order Store.empty "2024-05-06 10:00:00"
        (some { option_type := some "PUT", strike := some 850,
                expiration := some "20240510" }) =
      (RouteOutcome.clientErr, Store.empty) ∧
    (route_save_order Store.empty "2024-05-06 10:00:00"
        (some demoOrderData)).1 = RouteOutcome.ok 1 ∧
    (route_save_order Store.empty "2024-05-06 10:00:00"
        (some demoOrderData)).2.rows.length = 1 := by
  have hA := (route_save_order_validation Store.empty "2024-05-06 10:00:00"
      { option_type := some "PUT", strike := some 850,
        expiration := some "20240510" }).1 (Or.inl rfl)
  have hB := (route_save_order_validation Store.empty "2024-05-06 10:00:00"
      demoOrderData).2 (by decide) (by decide) (by decide) (by decide)
  exact ⟨hA, hB.1, hB.2⟩

/-- C3 fails as stated: after a concrete `createRollover` (per-unit limit
price 15.5), both rows are stored, but the stored sell row has no
`limit_price` column at all — `dict(row)` lacks the key — so its stored
limit price is not 100 × 15.5 (or anything else). -/
theorem rollover_stored_limit_price_cex :
    (rollover_option Store.empty "2024-05-06 10:00:00"
        (some demoRollover)).1 = RouteOutcome.ok (1, 2) ∧
    (get_order (rollover_option Store.empty "2024-05-06 10:00:00"
        (some demoRollover)).2 2).map
      (fun w => w.toDict.lookup "limit_price") = some none :=
  ⟨rfl, rfl⟩

/-- C3 (amended): both rows created by the rollover route are stored with
`isRollover = true` and opposite actions (BUY closing leg, SELL opening
leg); the sell-leg *payload* submitted to the store carries a limit price
of 100 × the supplied per-unit price, but `save_order` drops it — the
stored sell row has no `limit_price` column. -/
theorem rollover_creates_flagged_pair (s : Store) (hwf : s.wf) (now : String)
    (r : RolloverData) (p : Rat) (hfields : rolloverFieldsPresent r)
    (hp : r.new_limit_price = some p) :
    (rollover_option s now (some r)).1 =
      RouteOutcome.ok (s.nextId, s.nextId + 1) ∧
    (get_order (rollover_option s now (some r)).2 s.nextId).map
      (fun w => (w.isRollover, w.action)) = some (true, "BUY") ∧
    (get_order (rollover_option s now (some r)).2 (s.nextId + 1)).map
      (fun w => (w.isRollover, w.action)) = some (true, "SELL") ∧
    (rollover_sell_order r).limit_price = some (p * 100) ∧
    (get_order (rollover_option s now (some r)).2 (s.nextId + 1)).map
      (fun w => w.toDict.lookup "limit_price") = some none := by
  have hroute : rollover_option s now (some r) =
      (RouteOutcome.ok (s.nextId, s.nextId + 1),
        (save_order (save_order s now (rollover_buy_order r)).2 now
          (rollover_sell_order r)).2) := by
    unfold rollover_option
    dsimp only
    rw [if_pos hfields]
    rfl
  rw [hroute]
  refine ⟨rfl, ?_, ?_, ?_, ?_⟩
  · unfold save_order get_order
    rw [find?_append2_fst s.rows _ _ s.nextId
      (fun r' hr' => Nat.ne_of_lt (hwf r' hr')) rfl]
    rfl
  · unfold save_order get_order
    rw [find?_append2_snd s.rows _ _ (s.nextId + 1)
      (fun r' hr' => Nat.ne_of_lt (Nat.lt_trans (hwf r' hr')
        (Nat.lt_succ_self _)))
      (Nat.ne_of_lt (Nat.lt_succ_self _)) rfl]
    rfl
  · show some (r.new_limit_price.getD 0 * 100) = some (p * 100)
    rw [hp]
    rfl
  · unfold save_order get_order
    rw [find?_append2_snd s.rows _ _ (s.nextId + 1)
      (fun r' hr' => Nat.ne_of_lt (Nat.lt_trans (hwf r' hr')
        (Nat.lt_succ_self _)))
      (Nat.ne_of_lt (Nat.lt_succ_self _)) rfl]
    rfl

/-- Witness for the amended C3: the concrete rollover request. -/
theorem rollover_creates_flagged_pair_witness :
    (rollover_option Store.empty "2024-05-06 10:00:00"
        (some demoRollover)).1 = RouteOutcome.ok (1, 2) ∧
    (get_order (rollover_option Store.empty "2024-05-06 10:00:00"
        (some demoRollover)).2 1).map
      (fun w => (w.isRollover, w.action)) = some (true, "BUY") ∧
    (get_order (rollover_option Store.empty "2024-05-06 10:00:00"
        (some demoRollover)).2 2).map
      (fun w => (w.isRollover, w.action)) = some (true, "SELL") ∧
    (rollover_sell_order demoRollover).limit_price =
      some (155 / 10 * 100) ∧
    (get_order (rollover_option Store.empty "2024-05-06 10:00:00"
        (some demoRollover)).2 2).map
      (fun w => w.toDict.lookup "limit_price") = some none :=
  rollover_creates_flagged_pair Store.empty (by decide)
    "2024-05-06 10:00:00" demoRollover (155 / 10) (by decide) rfl

theorem get_primary_account_keeps_cache (accounts : List String)
    (st : CacheState) (a : String)
    (h : (get_primary_account_id accounts st).1 = some a) :
    (get_primary_account_id accounts st).2.primary_account_id = some a ∧
    (get_primary_account_id accounts st).2.holdings_cache =
      st.holdings_cache ∧
    (get_primary_account_id accounts st).2.cache_time = st.cache_time := by
  unfold get_primary_account_id at h ⊢
  revert h
  cases hpa : st.primary_account_id with
  | some b =>
    intro h
    dsimp only at h ⊢
    exact ⟨hpa.trans h, rfl, rfl⟩
  | none =>
    cases accounts with
    | nil =>
      intro h
      dsimp only at h
      cases h
    | cons x xs =>
      intro h
      dsimp only at h ⊢
      exact ⟨h, rfl, rfl⟩

theorem get_primary_account_cached (accounts : List String)
    (st : CacheState) (a : String) (hpa : st.primary_account_id = some a) :
    get_primary_account_id accounts st = (some a, st) := by
  unfold get_primary_account_id
  rw [hpa]

/-- C5: after a successful fetch at `t1`, any call within `CACHE_DURATION`
(60 s) returns the identical snapshot with zero further upstream calls (so
exactly one upstream call in total), and a call more than 60 s later makes
exactly one new upstream call. -/
theorem holdings_cache_spec (provider : String → Nat → Option Holdings)
    (accounts : List String) (st0 : CacheState) (t1 : Nat) (a : String)
    (h : Holdings) (hmiss : st0.holdings_cache = none)
    (hacct : (get_primary_account_id accounts st0).1 = some a)
    (hfetch : provider a t1 = some h) :
    (get_holdings_cache provider accounts st0 t1).result = some h ∧
    (get_holdings_cache provider accounts st0 t1).upstream_calls = 1 ∧
    (∀ t2, t1 ≤ t2 → t2 - t1 < CACHE_DURATION →
      get_holdings_cache provider accounts
          (get_holdings_cache provider accounts st0 t1).state t2 =
        { result := some h,
          state := (get_holdings_cache provider accounts st0 t1).state,
          upstream_calls := 0 }) ∧
    (∀ t3, t1 + CACHE_DURATION < t3 →
      (get_holdings_cache provider accounts
          (get_holdings_cache provider accounts st0 t1).state t3
        ).upstream_calls = 1) := by
  have hkeep := get_primary_account_keeps_cache accounts st0 a hacct
  have hg : get_primary_account_id accounts st0 =
      (some a, (get_primary_account_id accounts st0).2) := by
    rw [← hacct]
  have h1 : get_holdings_cache provider accounts st0 t1 =
      { result := some h,
        state := { (get_primary_account_id accounts st0).2 with
                   holdings_cache := some h, cache_time := some t1 },
        upstream_calls := 1 } := by
    unfold get_holdings_cache
    rw [hmiss]
    dsimp only
    rw [hg]
    dsimp only
    rw [hfetch]
  refine ⟨by rw [h1], by rw [h1], ?_, ?_⟩
  · intro t2 ht12 hlt
    rw [h1]
    unfold get_holdings_cache
    dsimp only
    rw [if_pos hlt]
  · intro t3 hgt
    have hS := get_primary_account_cached accounts
      { (get_primary_account_id accounts st0).2 with
        holdings_cache := some h, cache_time := some t1 } a hkeep.1
    rw [h1]
    unfold get_holdings_cache
    dsimp only
    rw [if_neg (by omega : ¬ t3 - t1 < CACHE_DURATION)]
    dsimp only
    rw [hS]
    dsimp only
    cases provider a t3 <;> rfl

/-- Witness for C5: a constant provider, first fetch at t=100, cached reuse
at t=150, refetch at t=200. -/
theorem holdings_cache_spec_witness :
    (get_holdings_cache (fun _ _ => some demoSnapshot) ["acct-1"] {}
        100).result = some demoSnapshot ∧
    (get_holdings_cache (fun _ _ => some demoSnapshot) ["acct-1"] {}
        100).upstream_calls = 1 ∧
    get_holdings_cache (fun _ _ => some demoSnapshot) ["acct-1"]
        (get_holdings_cache (fun _ _ => some demoSnapshot) ["acct-1"] {}
          100).state 150 =
      { result := some demoSnapshot,
        state := (get_holdings_cache (fun _ _ => some demoSnapshot)
          ["acct-1"] {} 100).state,
        upstream_calls := 0 } ∧
    (get_holdings_cache (fun _ _ => some demoSnapshot) ["acct-1"]
        (get_holdings_cache (fun _ _ => some demoSnapshot) ["acct-1"] {}
          100).state 200).upstream_calls = 1 := by
  have h := holdings_cache_spec (fun _ _ => some demoSnapshot) ["acct-1"]
    {} 100 "acct-1" demoSnapshot rfl rfl rfl
  exact ⟨h.1, h.2.1, h.2.2.1 150 (by decide) (by decide),
    h.2.2.2 200 (by decide)⟩

theorem filter_cons_pos' (p : Position → Bool) (a : Position)
    (l : List Position) (h : p a = true) :
    (a :: l).filter p = a :: l.filter p := by
  simp only [List.filter, h]

theorem filter_cons_neg' (p : Position → Bool) (a : Position)
    (l : List Position) (h : p a = false) :
    (a :: l).filter p = l.filter p := by
  simp only [List.filter, h]

theorem weekly_loop_eq (friday : String) (ps : List Position)
    (hexp : ∀ p ∈ ps, p.expiration ≠ "") :
    weekly_loop friday ps =
      ((ps.filter (fun p => decide (p.position < 0) &&
          pyStrLe p.expiration friday)).map weekly_enrich,
       ((ps.filter (fun p => decide (p.position < 0) &&
          pyStrLe p.expiration friday)).map
          (fun p => p.avg_cost * |p.position|)).sum) := by
  induction ps with
  | nil => rfl
  | cons p ps ih =>
    have htail := ih (fun q hq => hexp q (List.mem_cons_of_mem p hq))
    have hpe : (p.expiration != "") = true :=
      bne_iff_ne.2 (hexp p (List.mem_cons_self p ps))
    simp only [weekly_loop]
    by_cases hpos : 0 ≤ p.position
    · rw [if_pos hpos, htail,
        filter_cons_neg' _ p ps
          (by rw [decide_eq_false (not_lt.2 hpos)]; rfl)]
    · have hlt : p.position < 0 := lt_of_not_ge hpos
      by_cases hle : pyStrLe p.expiration friday = true
      · rw [if_neg hpos,
          if_pos (show (p.expiration != "" &&
            pyStrLe p.expiration friday) = true by rw [hpe, hle]; rfl),
          htail,
          filter_cons_pos' _ p ps
            (by rw [decide_eq_true hlt, hle]; rfl)]
        rfl
      · have hle' : pyStrLe p.expiration friday = false :=
          Bool.not_eq_true _ ▸ hle
        rw [if_neg hpos,
          if_neg (show ¬ (p.expiration != "" &&
              pyStrLe p.expiration friday) = true by
            rw [hle', Bool.and_false]; exact Bool.false_ne_true),
          htail,
          filter_cons_neg' _ p ps (by rw [hle', Bool.and_false])]

/-- C8: the weekly income calculator selects exactly the OPT positions with
quantity < 0 and expiration ≤ the computed Friday (provided every OPT
position carries a nonempty expiration, which normalization guarantees for
well-formed provider data); each selected position is enriched with
income = avg_cost × |quantity| and, for PUTs only, a notional of
strike × 100 × |quantity|; total income and total PUT notional are the
sums over the selected set; `days_until_friday` maps Friday to 0 and
always lands on a Friday at most 6 days ahead (weekends roll forward). -/
theorem weekly_income_spec (all : List Position) (friStr friHuman : String)
    (hexp : ∀ p ∈ all, p.security_type = "OPT" → p.expiration ≠ "") :
    (get_weekly_option_income all friStr friHuman).positions =
      (all.filter (fun p => decide (p.position < 0) &&
          pyStrLe p.expiration friStr && (p.security_type == "OPT"))).map
        weekly_enrich ∧
    (get_weekly_option_income all friStr friHuman).total_income =
      ((all.filter (fun p => decide (p.position < 0) &&
          pyStrLe p.expiration friStr && (p.security_type == "OPT"))).map
        (fun p => p.avg_cost * |p.position|)).sum ∧
    (get_weekly_option_income all friStr friHuman).total_put_notional =
      (((all.filter (fun p => decide (p.position < 0) &&
          pyStrLe p.expiration friStr && (p.security_type == "OPT"))).filter
          (fun p => p.option_type == "PUT")).map
        (fun p => p.strike * 100 * |p.position|)).sum ∧
    (∀ p, (weekly_enrich p).income = p.avg_cost * |p.position| ∧
      (weekly_enrich p).notional_value =
        (if p.option_type == "PUT" then
          some (p.strike * 100 * |p.position|) else none)) ∧
    days_until_friday 4 = 0 ∧
    (∀ w, w < 7 → (w + days_until_friday w) % 7 = 4 ∧
      days_until_friday w ≤ 6) := by
  have hfexp : ∀ p ∈ filter_positions "OPT" all, p.expiration ≠ "" := by
    intro p hp
    obtain ⟨hmem, hcond⟩ := List.mem_filter.1 hp
    exact hexp p hmem (eq_of_beq hcond)
  have hloop := weekly_loop_eq friStr (filter_positions "OPT" all) hfexp
  have hff : (filter_positions "OPT" all).filter
      (fun p => decide (p.position < 0) && pyStrLe p.expiration friStr) =
      all.filter (fun p => decide (p.position < 0) &&
        pyStrLe p.expiration friStr && (p.security_type == "OPT")) := by
    unfold filter_positions
    rw [List.filter_filter]
  refine ⟨?_, ?_, ?_, fun p => ⟨rfl, rfl⟩, by decide, by decide⟩
  · unfold get_weekly_option_income
    dsimp only
    rw [hloop]
    dsimp only
    rw [hff]
  · unfold get_weekly_option_income
    dsimp only
    rw [hloop]
    dsimp only
    rw [hff]
  · unfold get_weekly_option_income
    dsimp only
    rw [hloop]
    dsimp only
    rw [List.filter_map, List.map_map, hff]
    have hcongr : List.filter
        ((fun w => w.option_type == "PUT") ∘ weekly_enrich)
        (all.filter (fun p => decide (p.position < 0) &&
          pyStrLe p.expiration friStr && (p.security_type == "OPT"))) =
        (all.filter (fun p => decide (p.position < 0) &&
          pyStrLe p.expiration friStr && (p.security_type == "OPT"))).filter
          (fun p => p.option_type == "PUT") :=
      List.filter_congr (fun a _ => rfl)
    rw [hcongr]
    refine congrArg List.sum (List.map_congr_left ?_)
    intro a ha
    obtain ⟨-, hput⟩ := List.mem_filter.1 ha
    show (weekly_enrich a).notional_value.getD 0 =
      a.strike * 100 * |a.position|
    unfold weekly_enrich
    dsimp only
    rw [if_pos (show (a.option_type == "PUT") = true from hput)]
    rfl

/-- Witness for C8: the spec's example — a short PUT, quantity −10,
avg_cost 15.5, strike 850, expiring on the computed Friday: income 155,
notional 850000. -/
theorem weekly_income_spec_witness :
    (get_weekly_option_income [demoShortPut] "20240510"
        "2024-05-10").positions = [weekly_enrich demoShortPut] ∧
    (get_weekly_option_income [demoShortPut] "20240510"
        "2024-05-10").total_income = 155 ∧
    (weekly_enrich demoShortPut).income = 155 ∧
    (weekly_enrich demoShortPut).notional_value = some 850000 ∧
    (get_weekly_option_income [demoShortPut] "20240510"
        "2024-05-10").total_put_notional = 850000 := by
  have h := weekly_income_spec [demoShortPut] "20240510" "2024-05-10"
    (by decide)
  have hfil : ([demoShortPut].filter (fun p => decide (p.position < 0) &&
      pyStrLe p.expiration "20240510" && (p.security_type == "OPT"))) =
      [demoShortPut] := rfl
  have hfil2 : ([demoShortPut].filter (fun p => p.option_type == "PUT")) =
      [demoShortPut] := rfl
  have hinc : (weekly_enrich demoShortPut).income = 155 := by
    rw [(h.2.2.2.1 demoShortPut).1]
    norm_num [demoShortPut]
  have hnot : (weekly_enrich demoShortPut).notional_value = some 850000 := by
    rw [(h.2.2.2.1 demoShortPut).2]
    norm_num [demoShortPut]
  refine ⟨?_, ?_, hinc, hnot, ?_⟩
  · rw [h.1, hfil]
    rfl
  · rw [h.2.1, hfil]
    show demoShortPut.avg_cost * |demoShortPut.position| + 0 = 155
    norm_num [demoShortPut]
  · rw [h.2.2.1, hfil, hfil2]
    show demoShortPut.strike * 100 * |demoShortPut.position| + 0 = 850000
    norm_num [demoShortPut]

theorem process_option_positions_eq (l : List RawOptionPos) :
    process_option_positions l = l.filterMap normalize_option := by
  induction l with
  | nil => rfl
  | cons e l ih =>
    have hstep : process_option_positions (e :: l) =
        (match normalize_option e with
          | none => process_option_positions l
          | some q => q :: process_option_positions l) := rfl
    rw [hstep, List.filterMap_cons]
    cases hne : normalize_option e <;> dsimp only <;> rw [ih]

/-- C9: normalization drops exactly the option entries whose nested
underlying-symbol path is missing (observed as the `'N/A'` default): such
an entry normalizes to `none`, every other entry normalizes to a position
that is retained in the output, and the loop is the element-wise
`filterMap` — one bad entry never aborts its siblings. -/
theorem normalizer_drops_only_missing_underlying (h : Holdings) :
    (∀ e ∈ h.option_positions, underlying_missing e = true →
      normalize_option e = none) ∧
    (∀ e ∈ h.option_positions, underlying_missing e = false →
      ∃ q, normalize_option e = some q ∧
        q ∈ get_positions_from_holdings h) ∧
    process_option_positions h.option_positions =
      h.option_positions.filterMap normalize_option := by
  refine ⟨?_, ?_, process_option_positions_eq _⟩
  · intro e he hmiss
    unfold underlying_missing at hmiss
    unfold normalize_option
    cases ho : e.option_symbol with
    | none => rfl
    | some osd =>
      rw [ho] at hmiss
      dsimp only at hmiss
      dsimp only
      rw [if_pos hmiss]
  · intro e he hpresent
    unfold underlying_missing at hpresent
    cases ho : e.option_symbol with
    | none =>
      rw [ho] at hpresent
      dsimp only at hpresent
      cases hpresent
    | some osd =>
      rw [ho] at hpresent
      dsimp only at hpresent
      have hnorm : ∃ q, normalize_option e = some q := by
        unfold normalize_option
        rw [ho]
        dsimp only
        rw [if_neg (by rw [hpresent]; exact Bool.false_ne_true)]
        exact ⟨_, rfl⟩
      obtain ⟨q, hq⟩ := hnorm
      refine ⟨q, hq, ?_⟩
      unfold get_positions_from_holdings
      refine List.mem_append.2 (Or.inr ?_)
      rw [process_option_positions_eq]
      exact List.mem_filterMap.2 ⟨e, he, hq⟩

/-- Witness for C9: in a snapshot holding a malformed entry (missing
underlying path) next to a well-formed sibling, the malformed one is
dropped, the sibling is normalized and retained, and the output has
exactly one position. -/
theorem normalizer_drops_only_missing_underlying_witness :
    normalize_option demoBadOption = none ∧
    normalize_option demoGoodOption ≠ none ∧
    (get_positions_from_holdings demoHoldings).length = 1 := by
  have h := normalizer_drops_only_missing_underlying demoHoldings
  obtain ⟨q, hq, -⟩ := h.2.1 demoGoodOption
    (List.mem_cons_of_mem _ (List.mem_cons_self _ _)) rfl
  refine ⟨h.1 demoBadOption (List.mem_cons_self _ _) rfl, ?_, rfl⟩
  intro hc
  rw [hq] at hc
  cases hc

end AllYouNeedIsWheel
